import Mathlib

/-!
Verification of the goriakpbc Riak client library: a shallow embedding of
the transport framing, connection pool, streaming response aggregation,
and the conflict-aware object model, with theorems settling the frozen
claims about the natural-language specification.

Conventions of the embedding:
  * Go byte slices are `List Nat` (each entry a byte value), Go strings
    are `String`.
  * Go machine integers are `Nat` with explicit `% 2 ^ w` at the points
    where the source converts or truncates.
  * Protobuf optional fields (`*T` pointers, possibly-nil slices) are
    `Option`.
  * Go maps built by insertion loops are modelled as association lists
    updated in iteration order (`mapInsert` overwrites an existing key,
    matching Go map assignment).
  * Network effects (the remote store's responses, dial results, stream
    contents) are passed in as explicit parameters; observable actions
    (dial attempts, read attempts) are counted in the returned record.
-/

namespace Riak

/-- Byte strings on the wire: a list of byte values. -/
abbrev Bytes := List Nat

/-! ## Framer (client.go, `request` lines 202-205 and `response` lines 244-255)

The source builds the frame as
`i := int32(len(pbmsg) + 1); msgbuf := []byte{byte(i >> 24), byte(i >> 16), byte(i >> 8), byte(i), code}`
followed by the payload, and the reader computes
`msglen := int(msgbuf[0])<<24 + int(msgbuf[1])<<16 + int(msgbuf[2])<<8 + int(msgbuf[3])`
and then reads `msglen - 1` further bytes after opcode `msgbuf[4]`. -/

/-- The length header value: `int32(len(pbmsg) + 1)` truncates to 32 bits. -/
def frameLen (payload : Bytes) : Nat := (payload.length + 1) % 2 ^ 32

/-- Encode a frame exactly as `Client.request` does: four big-endian length
bytes, the opcode byte, then the payload. -/
def encodeFrame (code : Nat) (payload : Bytes) : Bytes :=
  let i := frameLen payload
  [i >>> 24 % 256, i >>> 16 % 256, i >>> 8 % 256, i % 256, code] ++ payload

/-- Reassemble the message length from the first four header bytes, as
`Client.response` does. -/
def decodeMsgLen (b : Bytes) : Nat :=
  b.headI * 2 ^ 24 + (b.drop 1).headI * 2 ^ 16 + (b.drop 2).headI * 2 ^ 8 + (b.drop 3).headI

/-- Decode the five-byte header: fails when fewer than five bytes are
available (`BadResponseLength`), otherwise yields the opcode byte and the
number of remaining bytes to read (`msglen - 1`). -/
def decodeHeader (b : Bytes) : Option (Nat × Nat) :=
  if b.length < 5 then none
  else some ((b.drop 4).headI, decodeMsgLen b - 1)

/-- Recomposing a 32-bit value from its four big-endian bytes. -/
theorem msgLen_recompose (n : Nat) (h : n < 2 ^ 32) :
    n >>> 24 % 256 * 2 ^ 24 + n >>> 16 % 256 * 2 ^ 16 + n >>> 8 % 256 * 2 ^ 8 + n % 256 = n := by
  simp only [Nat.shiftRight_eq_div_pow]
  omega

/-- Claim C4: for every opcode byte and payload whose framed length fits the
4-byte header, the frame built by the request path is the big-endian value
`len(payload) + 1`, then the opcode, then the payload, and decoding the
header of that frame recovers the opcode and a remaining length equal to
`len(payload)`. -/
theorem frame_roundtrip (code : Nat) (payload : Bytes)
    (h : payload.length + 1 < 2 ^ 32) :
    encodeFrame code payload =
      [frameLen payload >>> 24 % 256, frameLen payload >>> 16 % 256,
        frameLen payload >>> 8 % 256, frameLen payload % 256, code] ++ payload ∧
    decodeHeader (encodeFrame code payload) = some (code, payload.length) := by
  constructor
  · rfl
  · have hfl : frameLen payload = payload.length + 1 := Nat.mod_eq_of_lt h
    have hlt : frameLen payload < 2 ^ 32 := by rw [hfl]; exact h
    simp only [encodeFrame, decodeHeader, decodeMsgLen]
    have hlen : ([frameLen payload >>> 24 % 256, frameLen payload >>> 16 % 256,
        frameLen payload >>> 8 % 256, frameLen payload % 256, code] ++ payload).length =
        5 + payload.length := by simp; omega
    rw [if_neg (by omega)]
    simp only [List.drop, List.append_eq, List.cons_append, List.headI_cons]
    rw [msgLen_recompose (frameLen payload) hlt, hfl]
    simp

/-- Witness for C4 at a concrete frame. -/
theorem frame_roundtrip_witness :
    ([3, 7, 7] : Bytes).length + 1 < 2 ^ 32 ∧
      decodeHeader (encodeFrame 9 [3, 7, 7]) = some (9, 3) :=
  ⟨by decide, (frame_roundtrip 9 [3, 7, 7] (by decide)).2⟩

/-! ## Object model (robject.go: `RObject`, `setContent`, `Get`, `Store`, `Reload`)

The embedded variant is the protobuf-constant one (the one that type-checks
against `Client.request(req proto.Message, code byte)` in client.go): its
`Sibling`/`RObject` carry `MultiIndexes`, `Vtag` and last-modified stamps,
its `Get` sets `NotfoundOk`/`Deletedvclock` and returns the partially
populated object with the response vclock on a zero-content response, and
its `Store` sends the vclock when non-empty. -/

/-- A Riak link (bucket, key, tag), as converted from `pb.RpbLink`. -/
structure Link where
  bucket : String
  key : String
  tag : String
deriving Repr, DecidableEq

/-- Go map assignment `m[k] = v` on an association-list model: overwrite an
existing binding for `k`, otherwise append the new binding. -/
def mapInsert (m : List (String × String)) (k v : String) : List (String × String) :=
  if m.any (fun p => p.1 == k) then m.map (fun p => if p.1 == k then (k, v) else p)
  else m ++ [(k, v)]

/-- Go `map[string][]string` append `m[k] = append(m[k], v)`. -/
def multiMapAppend (m : List (String × List String)) (k v : String) :
    List (String × List String) :=
  if m.any (fun p => p.1 == k) then
    m.map (fun p => if p.1 == k then (k, p.2 ++ [v]) else p)
  else m ++ [(k, [v])]

/-- Build a map by inserting key/value pairs in iteration order. -/
def mkMap (pairs : List (String × String)) : List (String × String) :=
  pairs.foldl (fun m p => mapInsert m p.1 p.2) []

/-- Build a multi-valued map by appending key/value pairs in iteration order. -/
def mkMultiMap (pairs : List (String × String)) : List (String × List String) :=
  pairs.foldl (fun m p => multiMapAppend m p.1 p.2) []

/-- One content entry of a get response (`pb.RpbContent`), with the fields
`setContent` reads. `lastMod`/`lastModUsecs` are dereferenced unconditionally
by the source, so they are modelled as present. -/
structure RpbContent where
  value : Bytes
  contentType : String
  vtag : String
  lastMod : Nat
  lastModUsecs : Nat
  links : List Link
  usermeta : List (String × String)
  indexes : List (String × String)
deriving Repr, DecidableEq

/-- Decoded `pb.RpbGetResp`: the vclock bytes (empty list = nil), the content
entries, and the optional `Unchanged` flag. -/
structure RpbGetResp where
  vclock : Bytes
  content : List RpbContent
  unchanged : Option Bool
deriving Repr, DecidableEq

/-- One sibling snapshot (`Sibling` in robject.go). -/
structure Sibling where
  contentType : String
  data : Bytes
  links : List Link
  meta : List (String × String)
  indexes : List (String × String)
  multiIndexes : List (String × List String)
  vtag : String
  lastMod : Nat
  lastModUsecs : Nat
deriving Repr, DecidableEq

/-- The stored object (`RObject` in robject.go); the `Bucket` pointer is
represented by the bucket name. -/
structure RObject where
  bucketName : String
  vclock : Bytes
  key : String
  contentType : String
  data : Bytes
  links : List Link
  meta : List (String × String)
  indexes : List (String × String)
  multiIndexes : List (String × List String)
  conflict : Bool
  siblings : List Sibling
deriving Repr, DecidableEq

/-- The object a fresh `Get` starts from:
`obj = &RObject{Key: key, Bucket: b, Vclock: resp.Vclock, Options: options}`;
all other fields take Go zero values. -/
def freshRObject (bucketName key : String) (vclock : Bytes) : RObject :=
  { bucketName := bucketName, vclock := vclock, key := key, contentType := "",
    data := [], links := [], meta := [], indexes := [], multiIndexes := [],
    conflict := false, siblings := [] }

/-- The sibling snapshot `setContent` builds from one content entry in the
multi-content branch. -/
def siblingOfContent (c : RpbContent) : Sibling :=
  { contentType := c.contentType, data := c.value,
    links := c.links, meta := mkMap c.usermeta,
    indexes := mkMap c.indexes, multiIndexes := mkMultiMap c.indexes,
    vtag := c.vtag, lastMod := c.lastMod, lastModUsecs := c.lastModUsecs }

/-- `RObject.setContent`: with more than one content entry, mark the object
conflicted and build one sibling per entry; with exactly one entry, clear the
conflict flag and set the single-value fields directly (the siblings list is
not touched in this branch, exactly as in the source); with zero entries, do
nothing. -/
def setContent (obj : RObject) (resp : RpbGetResp) : RObject :=
  if 1 < resp.content.length then
    { obj with conflict := true, siblings := resp.content.map siblingOfContent }
  else
    match resp.content with
    | [c] =>
      { obj with
        conflict := false
        contentType := c.contentType
        data := c.value
        links := c.links
        meta := mkMap c.usermeta
        indexes := mkMap c.indexes
        multiIndexes := mkMultiMap c.indexes }
    | _ => obj

/-- Errors of the embedded client. -/
inductive RErr where
  | notFound
  | resolveNotImplemented
  | readErr (eof : Bool)
  | storeError (msg : String)
  | badResponseLength
  | badNumberOfConnections
  | resolutionError
  | dialError
  | chanWaitTimeout
deriving Repr, DecidableEq

/-- `Bucket.Get`, given the decoded get response: always builds the object
carrying the response vclock (`even if only for storing the returned Vclock`),
returns it with `NotFound` when the response has no content, otherwise
populates it through `setContent`. -/
def bucketGet (bucketName key : String) (resp : RpbGetResp) : RObject × Option RErr :=
  let obj := freshRObject bucketName key resp.vclock
  if resp.content.length = 0 then (obj, some .notFound)
  else (setContent obj resp, none)

/-- `RObject.Reload`, given the decoded conditional-get response: if the
store reports `Unchanged`, the object is returned untouched; otherwise the
vclock is replaced and the content re-set exactly as in `Get`. -/
def reload (obj : RObject) (resp : RpbGetResp) : RObject :=
  if resp.unchanged = some true then obj
  else setContent { obj with vclock := resp.vclock } resp

/-- The put request as `RObject.Store` assembles it (quorum options left to
the wire layer; link/meta/index payload kept as the converted lists). -/
structure RpbPutReq where
  bucket : String
  key : Option String
  vclock : Option Bytes
  value : Bytes
  contentType : String
  returnHead : Option Bool
  links : List Link
  usermeta : List (String × String)
  indexes : List (String × String)
deriving Repr, DecidableEq

/-- Association-list lookup mirroring Go's `m[k]` (zero value `""` when the
key is absent), used by the MultiIndexes duplicate test in `Store`. -/
def mapLookup (m : List (String × String)) (k : String) : String :=
  match m.find? (fun p => p.1 == k) with
  | some p => p.2
  | none => ""

/-- The extra index pairs contributed by `obj.MultiIndexes`: every value
except ones duplicating the single-value `obj.Indexes[k]` entry. -/
def multiIndexPairs (obj : RObject) : List (String × String) :=
  (obj.multiIndexes.map (fun p =>
    (p.2.filter (fun v => ¬(mapLookup obj.indexes p.1 == v))).map
      (fun v => (p.1, v)))).flatten

/-- The request `RObject.Store` builds: `ReturnHead` always true, the key
only when non-empty, the vclock only when non-empty (`len(obj.Vclock) > 0`),
and the indexes extended with the non-duplicate MultiIndexes values. -/
def buildPutReq (obj : RObject) : RpbPutReq :=
  { bucket := obj.bucketName,
    key := if obj.key ≠ "" then some obj.key else none,
    vclock := if 0 < obj.vclock.length then some obj.vclock else none,
    value := obj.data,
    contentType := obj.contentType,
    returnHead := some true,
    links := obj.links,
    usermeta := obj.meta,
    indexes := obj.indexes ++ multiIndexPairs obj }

/-- Decoded `pb.RpbPutResp` (`ReturnHead` is set, so the vclock comes back;
the key is present when the store assigned one). -/
structure RpbPutResp where
  vclock : Bytes
  key : String
deriving Repr, DecidableEq

/-- The state update `RObject.Store` applies after a successful exchange:
`obj.Vclock = resp.Vclock`, and the store-assigned key is captured only when
the object's key was empty. -/
def storeApply (obj : RObject) (resp : RpbPutResp) : RObject :=
  let obj := { obj with vclock := resp.vclock }
  if obj.key = "" then { obj with key := resp.key } else obj

/-! ## Claims C1-C3 -/

/-- A first concrete content entry for tests of the conflict machinery. -/
def contentA : RpbContent :=
  { value := [118, 49], contentType := "text/plain", vtag := "a", lastMod := 1,
    lastModUsecs := 0, links := [], usermeta := [], indexes := [] }

/-- A second concrete content entry, differing in data. -/
def contentB : RpbContent :=
  { contentA with value := [118, 50], vtag := "b" }

/-- An object fetched in conflict: two content entries. -/
def conflictedObj : RObject :=
  (bucketGet "b" "k" { vclock := [7], content := [contentA, contentB], unchanged := none }).1

/-- The conflicted object after a `Reload` whose response carries exactly one
content entry. -/
def reloadedObj : RObject :=
  reload conflictedObj { vclock := [8], content := [contentA], unchanged := none }

/-- Claim C1 counterexample: a `Reload` of a previously conflicted object
that now returns one content entry clears the conflict flag but leaves the
stale siblings in place, so the claimed invariant (conflict flag false means
empty siblings) does not hold after every operation. -/
theorem reload_breaks_sibling_invariant :
    reloadedObj.conflict = false ∧ reloadedObj.siblings ≠ [] := by decide

/-- Claim C1 (amended): on a response with more than one content entry,
`setContent` marks the object conflicted and fills `Siblings` with one
snapshot per content entry (hence at least two), each built from its own
content entry; and for an object freshly populated by `Get`, a false
conflict flag does imply an empty sibling list. The invariant is *not*
preserved by `Reload` of a previously conflicted object, since the
single-content branch of `setContent` never clears `Siblings`. -/
theorem setContent_conflict_and_get_invariant (obj : RObject) (resp : RpbGetResp)
    (bn k : String) (respg : RpbGetResp) (h : 1 < resp.content.length) :
    (setContent obj resp).conflict = true ∧
    (setContent obj resp).siblings = resp.content.map siblingOfContent ∧
    2 ≤ (setContent obj resp).siblings.length ∧
    ((bucketGet bn k respg).1.conflict = false → (bucketGet bn k respg).1.siblings = []) := by
  refine ⟨?_, ?_, ?_, ?_⟩
  · simp [setContent, if_pos h]
  · simp [setContent, if_pos h]
  · simp [setContent, if_pos h]; omega
  · intro hc
    unfold bucketGet at hc ⊢
    by_cases h0 : respg.content.length = 0
    · have h0e : respg.content = [] := by simpa using h0
      simp [h0e, freshRObject]
    · simp only [if_neg h0] at hc ⊢
      unfold setContent at hc ⊢
      by_cases h1 : 1 < respg.content.length
      · simp [if_pos h1] at hc
      · have : respg.content.length = 1 := by omega
        match hm : respg.content with
        | [c] => simp [if_neg h1, hm, freshRObject]
        | [] => simp [hm] at this
        | a :: b :: t => simp [hm] at this

/-- Witness for the amended C1 at concrete inputs. -/
theorem setContent_conflict_and_get_invariant_witness :
    (setContent (freshRObject "b" "k" [7])
        { vclock := [7], content := [contentA, contentB], unchanged := none }).conflict = true ∧
    (bucketGet "b" "k" { vclock := [9], content := [contentA], unchanged := none }).1.siblings
      = [] := by
  have h := setContent_conflict_and_get_invariant (freshRObject "b" "k" [7])
    { vclock := [7], content := [contentA, contentB], unchanged := none }
    "b" "k" { vclock := [9], content := [contentA], unchanged := none } (by decide)
  exact ⟨h.1, h.2.2.2 (by decide)⟩

/-- Claim C2: a `Get` whose decoded response carries zero content entries
fails with `NotFound` but still returns a partially populated object whose
vclock is the response's vclock (hence non-nil whenever the store returned a
tombstone clock). -/
theorem get_notFound_preserves_vclock (bn k : String) (resp : RpbGetResp)
    (h : resp.content = []) :
    (bucketGet bn k resp).2 = some .notFound ∧
    (bucketGet bn k resp).1.vclock = resp.vclock ∧
    (resp.vclock ≠ [] → (bucketGet bn k resp).1.vclock ≠ []) := by
  refine ⟨?_, ?_, ?_⟩
  · simp [bucketGet, h]
  · simp [bucketGet, h, freshRObject]
  · intro hv
    simpa [bucketGet, h, freshRObject] using hv

/-- Witness for C2: a tombstone response with a clock but no content. -/
theorem get_notFound_preserves_vclock_witness :
    (bucketGet "b" "gone" { vclock := [3, 1], content := [], unchanged := none }).2
      = some .notFound ∧
    (bucketGet "b" "gone" { vclock := [3, 1], content := [], unchanged := none }).1.vclock
      = [3, 1] := by
  have h := get_notFound_preserves_vclock "b" "gone"
    { vclock := [3, 1], content := [], unchanged := none } (by decide)
  exact ⟨h.1, h.2.1⟩

/-- Claim C3: the put request carries the object's vclock whenever it is
non-empty and always sets `ReturnHead`; after a successful store the
response's vclock replaces the object's clock, and when the object's key was
empty the store-assigned key is captured. -/
theorem store_vclock_returnHead_key (obj : RObject) (resp : RpbPutResp) :
    (obj.vclock ≠ [] → (buildPutReq obj).vclock = some obj.vclock) ∧
    (buildPutReq obj).returnHead = some true ∧
    (storeApply obj resp).vclock = resp.vclock ∧
    (obj.key = "" → (storeApply obj resp).key = resp.key) := by
  refine ⟨?_, rfl, ?_, ?_⟩
  · intro hv
    have : 0 < obj.vclock.length := List.length_pos.mpr hv
    simp [buildPutReq, if_pos this]
  · unfold storeApply
    by_cases hk : obj.key = "" <;> simp [hk]
  · intro hk
    simp [storeApply, hk]

/-- Witness for C3 at a concrete object and put response. -/
theorem store_vclock_returnHead_key_witness :
    (buildPutReq { freshRObject "b" "" [5] with data := [118] }).vclock = some [5] ∧
    (storeApply { freshRObject "b" "" [5] with data := [118] }
        { vclock := [6], key := "assigned" }).key = "assigned" := by
  have h := store_vclock_returnHead_key { freshRObject "b" "" [5] with data := [118] }
    { vclock := [6], key := "assigned" }
  exact ⟨h.1 (by decide), h.2.2.2 (by decide)⟩

/-! ## Connection pool (client.go: `Client`, `tcpConnect`, `Close`, `getConn`,
`releaseConn`, `request`)

The `conns` buffered channel is modelled as a FIFO queue of `Option Conn`
(`net.DialTCP` may yield a nil connection pointer, which the channel happily
carries, see claim C10). Network effects are parameters: `dial i` is the
result of the i-th dial attempt, `resolveOk` whether `net.ResolveTCPAddr`
succeeds. Blocking channel operations that can never be satisfied within the
modelled call are reported as failures. -/

/-- Connection identity. -/
abbrev Conn := Nat

/-- The client's pool-relevant state: `conn_count`, the `connected` flag and
the buffered `conns` channel. -/
structure PoolState where
  total : Nat
  connected : Bool
  conns : List (Option Conn)
deriving Repr, DecidableEq

/-- `Client.releaseConn`: send the connection down the channel for re-use. -/
def releaseConn (p : PoolState) (c : Option Conn) : PoolState :=
  { p with conns := p.conns ++ [c] }

/-- The sequential dial loop of `tcpConnect`: dial attempts `i, i+1, ...`
until `remaining` successes or the first failure, returning the
successfully opened connections in order, the error if any, and the number
of dial attempts made. -/
def dialFrom (dial : Nat → Option Conn) (i : Nat) (remaining : Nat) :
    List Conn × Option RErr × Nat :=
  match remaining with
  | 0 => ([], none, 0)
  | r + 1 =>
    match dial i with
    | none => ([], some .dialError, 1)
    | some c =>
      let rest := dialFrom dial (i + 1) r
      (c :: rest.1, rest.2.1, rest.2.2 + 1)

/-- Result of a `Connect`/`tcpConnect` call, with the observable actions:
how many dials were attempted and which connections were closed (the source
closes none inside `tcpConnect`). -/
structure ConnectOutcome where
  err : Option RErr
  state : PoolState
  dialsAttempted : Nat
  closed : List (Option Conn)
deriving Repr, DecidableEq

/-- `Client.tcpConnect`: resolve the address; fail with
`BadNumberOfConnections` when `conn_count <= 0`; when *not* connected,
allocate a fresh channel and dial `conn_count` connections sequentially,
aborting on the first failure; when already connected, skip the dial loop
entirely (the existing connections are neither closed nor replaced); in
either non-error case finish by setting `connected = true`. -/
def tcpConnect (p : PoolState) (resolveOk : Bool) (dial : Nat → Option Conn) :
    ConnectOutcome :=
  if ¬resolveOk then
    { err := some .resolutionError, state := p, dialsAttempted := 0, closed := [] }
  else if p.total = 0 then
    { err := some .badNumberOfConnections, state := p, dialsAttempted := 0, closed := [] }
  else if ¬p.connected then
    let d := dialFrom dial 0 p.total
    match d.2.1 with
    | some e =>
      { err := some e, state := { p with conns := d.1.map some },
        dialsAttempted := d.2.2, closed := [] }
    | none =>
      { err := none, state := { p with conns := d.1.map some, connected := true },
        dialsAttempted := d.2.2, closed := [] }
  else
    { err := none, state := { p with connected := true }, dialsAttempted := 0, closed := [] }

/-- `Client.Close`: a no-op when not connected; otherwise receive and close
`conn_count` connections from the channel and clear the flag. When fewer
than `conn_count` connections are buffered the channel receive blocks
forever, reported as `none`. -/
def closePool (p : PoolState) : Option PoolState :=
  if ¬p.connected then some p
  else if p.conns.length < p.total then none
  else some { p with connected := false, conns := p.conns.drop p.total }

/-- `Client.getConn`: connect first when not yet connected, then receive one
connection from the channel (an empty channel blocks, reported as a
timeout failure as with a configured `chanWait`). -/
def getConn (p : PoolState) (resolveOk : Bool) (dial : Nat → Option Conn) :
    Except RErr (Option Conn) × PoolState :=
  if p.connected then
    match p.conns with
    | [] => (.error .chanWaitTimeout, p)
    | c :: rest => (.ok c, { p with conns := rest })
  else
    let co := tcpConnect p resolveOk dial
    match co.err with
    | some e => (.error e, co.state)
    | none =>
      match co.state.conns with
      | [] => (.error .chanWaitTimeout, co.state)
      | c :: rest => (.ok c, { co.state with conns := rest })

/-- What the write on the acquired connection does. -/
inductive WriteResult where
  | ok
  | errEPIPE
  | errOther
deriving Repr, DecidableEq

/-- Exit paths of `Client.request`. -/
inductive SendOutcome where
  | noConn (e : RErr)
  | marshalFailed (conn : Option Conn)
  | writeFailed (conn : Option Conn)
  | writeBlocked (conn : Option Conn)
  | sent (conn : Option Conn)
deriving Repr, DecidableEq

/-- `Client.request`: acquire a connection, marshal, frame and write. On
marshal failure the function returns `(err, conn)` without any release (the
callers drop the connection). On a write failure the deferred `releaseConn`
returns the connection, after `Close()` has been attempted in the `EPIPE`
case (a `Close` that itself blocks, since the acquired connection is not in
the channel). On success the connection stays checked out for the response
phase. -/
def request (p : PoolState) (resolveOk : Bool) (dial : Nat → Option Conn)
    (marshalOk : Bool) (w : WriteResult) : SendOutcome × PoolState :=
  match getConn p resolveOk dial with
  | (.error e, p1) => (.noConn e, p1)
  | (.ok conn, p1) =>
    if ¬marshalOk then (.marshalFailed conn, p1)
    else
      match w with
      | .ok => (.sent conn, p1)
      | .errOther => (.writeFailed conn, releaseConn p1 conn)
      | .errEPIPE =>
        match closePool p1 with
        | none => (.writeBlocked conn, p1)
        | some p2 => (.writeFailed conn, releaseConn p2 conn)

/-! ## Single response reader (client.go: `response`, lines 229-269)

The connection's incoming byte stream is `buf`; once it is exhausted a
read yields `tail` (`io.EOF` when the peer closed the socket, some other
error otherwise). `redial` is the result of the `net.DialTCP` performed on
EOF (its error is discarded by the source: `conn, _ = net.DialTCP(...)`).
Payload decoding is the external protobuf collaborator: `decodeErrMsg`
extracts the error message of an error-opcode payload, `unmarshalOk`
whether decoding into the caller-supplied response shape succeeds. -/

/-- Read errors of the transport. -/
inductive RdErr where
  | eof
  | other
deriving Repr, DecidableEq

/-- A connection's incoming data. -/
structure ConnIn where
  buf : Bytes
  tail : RdErr
deriving Repr, DecidableEq

/-- `Client.read`: loop until `size` bytes are collected or the connection
reports an error. -/
def readN (cin : ConnIn) (n : Nat) : Except RdErr (Bytes × ConnIn) :=
  if n ≤ cin.buf.length then .ok (cin.buf.take n, { cin with buf := cin.buf.drop n })
  else .error cin.tail

/-- Observable result of one `Client.response` call: the returned error, the
connection placed back into the pool, and how many dials and read calls
were performed. -/
structure RespOutcome where
  err : Option RErr
  putBack : Option Conn
  dials : Nat
  reads : Nat
deriving Repr, DecidableEq

/-- The opcode constants from message_codes.go used by `response`. -/
def rpbErrorResp : Nat := 0

/-- `rpbPingResp` from message_codes.go. -/
def rpbPingResp : Nat := 2

/-- `rpbSetClientIdResp` from message_codes.go. -/
def rpbSetClientIdResp : Nat := 6

/-- `rpbDelResp` from message_codes.go. -/
def rpbDelResp : Nat := 14

/-- `rpbSetBucketResp` from message_codes.go. -/
def rpbSetBucketResp : Nat := 22

/-- `rpbMapRedResp` from message_codes.go. -/
def rpbMapRedResp : Nat := 24

/-- `Client.response`: read the 5-byte header; on an `io.EOF` read failure
re-dial the connection once, discarding the dial error, put the dial result
(possibly nil) back into the pool and surface the original read error (no
retry of the read is performed); on any other read failure put the original
connection back and surface the error. With a complete header, read the
remaining `msglen - 1` bytes and dispatch on the opcode: the error opcode
yields the store's decoded message, the four acknowledgement opcodes
succeed with no decode, anything else decodes into the caller's response
shape. The connection is released on every path. -/
def response (conn : Option Conn) (cin : ConnIn) (redial : Option Conn)
    (decodeErrMsg : Bytes → String) (unmarshalOk : Bool) : RespOutcome :=
  match readN cin 5 with
  | .error e =>
    if e = .eof then
      { err := some (.readErr true), putBack := redial, dials := 1, reads := 1 }
    else
      { err := some (.readErr false), putBack := conn, dials := 0, reads := 1 }
  | .ok (hdr, rest) =>
    let msglen := decodeMsgLen hdr
    match readN rest (msglen - 1) with
    | .error e =>
      { err := some (.readErr (e = .eof)), putBack := conn, dials := 0, reads := 2 }
    | .ok (pbmsg, _) =>
      let msgcode := (hdr.drop 4).headI
      if msgcode = rpbErrorResp then
        { err := some (.storeError (decodeErrMsg pbmsg)), putBack := conn,
          dials := 0, reads := 2 }
      else if msgcode = rpbPingResp ∨ msgcode = rpbSetClientIdResp ∨
          msgcode = rpbSetBucketResp ∨ msgcode = rpbDelResp then
        { err := none, putBack := conn, dials := 0, reads := 2 }
      else
        { err := if unmarshalOk then none else some (.storeError "unmarshal"),
          putBack := conn, dials := 0, reads := 2 }

/-! ## Claims C5-C7 and C10 -/

/-- Abstract acquire/release events on the buffered-channel pool. -/
inductive PoolEv where
  | acq
  | rel
deriving Repr, DecidableEq

/-- The pool as a counting machine: `(available, checkedOut)`. An acquire
succeeds only when a connection is available; a release only returns a
checked-out connection (the caller discipline of the claim). -/
def poolRun : Nat × Nat → List PoolEv → Option (Nat × Nat)
  | s, [] => some s
  | (a, o), .acq :: evs => if a = 0 then none else poolRun (a - 1, o + 1) evs
  | (a, o), .rel :: evs => if o = 0 then none else poolRun (a + 1, o - 1) evs

/-- The counting machine preserves `available + checkedOut = N`. -/
theorem poolRun_inv (N : Nat) (evs : List PoolEv) :
    ∀ a o a2 o2, a + o = N → poolRun (a, o) evs = some (a2, o2) → a2 + o2 = N := by
  induction evs with
  | nil => intro a o a2 o2 h hr; simp [poolRun] at hr; omega
  | cons e evs ih =>
    intro a o a2 o2 h hr
    cases e with
    | acq =>
      simp only [poolRun] at hr
      by_cases ha : a = 0
      · simp [ha] at hr
      · rw [if_neg ha] at hr
        exact ih (a - 1) (o + 1) a2 o2 (by omega) hr
    | rel =>
      simp only [poolRun] at hr
      by_cases ho : o = 0
      · simp [ho] at hr
      · rw [if_neg ho] at hr
        exact ih (a + 1) (o - 1) a2 o2 (by omega) hr

/-- Claim C5 counterexample: on the marshal-failure exit of `request` the
acquired connection is neither released nor handed on, so with a pool of one
connection and no connection outstanding afterwards, a subsequent acquire
blocks (fails) — the connection was taken but never returned. -/
theorem request_marshal_leak :
    request ⟨1, true, [some 0]⟩ true (fun _ => none) false .ok
      = (.marshalFailed (some 0), ⟨1, true, []⟩) ∧
    (getConn ⟨1, true, []⟩ true (fun _ => none)).1 = .error .chanWaitTimeout := by
  constructor <;> rfl

/-- Claim C5 (amended): on the marshal-failure exit the acquired connection
is leaked (the pool permanently loses it); on the write-failure exit the
deferred release returns it exactly once; on the success exit it stays
checked out and the subsequent `response` puts exactly one connection back,
restoring the pool size; and the buffered-channel pool itself never exceeds
`N` checked-out connections and always admits an acquire once everything
outstanding has been released. -/
theorem pool_release_discipline
    (p : PoolState) (c : Option Conn) (rest : List (Option Conn))
    (dial : Nat → Option Conn) (cin : ConnIn) (redial : Option Conn)
    (dm : Bytes → String) (u : Bool) (N : Nat) (evs : List PoolEv) (a o : Nat)
    (hp : p.connected = true) (hc : p.conns = c :: rest) :
    request p true dial false .ok = (.marshalFailed c, { p with conns := rest }) ∧
    request p true dial true .errOther
      = (.writeFailed c, { p with conns := rest ++ [c] }) ∧
    request p true dial true .ok = (.sent c, { p with conns := rest }) ∧
    (releaseConn { p with conns := rest } (response c cin redial dm u).putBack).conns.length
      = p.conns.length ∧
    (poolRun (N, 0) evs = some (a, o) →
      o ≤ N ∧ (o = 0 → a = N ∧ (N ≠ 0 → poolRun (a, o) [.acq] ≠ none))) := by
  refine ⟨?_, ?_, ?_, ?_, ?_⟩
  · simp [request, getConn, hp, hc]
  · simp [request, getConn, hp, hc, releaseConn]
  · simp [request, getConn, hp, hc]
  · simp [releaseConn, hc]
  · intro hr
    have hinv := poolRun_inv N evs N 0 a o (by omega) hr
    refine ⟨by omega, ?_⟩
    intro ho
    refine ⟨by omega, ?_⟩
    intro hN
    have ha : a ≠ 0 := by omega
    simp [poolRun, ha]

/-- Witness for the amended C5 at a concrete pool and trace. -/
theorem pool_release_discipline_witness :
    request ⟨2, true, [some 1, some 2]⟩ true (fun _ => none) true .errOther
      = (.writeFailed (some 1), ⟨2, true, [some 2, some 1]⟩) ∧
    (poolRun (3, 0) [.acq, .rel] = some (3, 0) →
      (0 : Nat) ≤ 3 ∧ ((0 : Nat) = 0 → (3 : Nat) = 3 ∧ ((3 : Nat) ≠ 0 →
        poolRun (3, 0) [.acq] ≠ none))) := by
  have h := pool_release_discipline ⟨2, true, [some 1, some 2]⟩ (some 1) [some 2]
    (fun _ => none) ⟨[], .eof⟩ none (fun _ => "") true 3 [.acq, .rel] 3 0 rfl rfl
  exact ⟨h.2.1, h.2.2.2.2⟩

/-- Claim C6 counterexample: calling `tcpConnect` on an already-connected
client neither closes the existing connections nor dials fresh ones — the
old pool is left exactly in place and zero dials are attempted. -/
theorem connect_when_connected_noop :
    tcpConnect ⟨2, true, [some 10, some 11]⟩ true (fun i => some (100 + i))
      = ⟨none, ⟨2, true, [some 10, some 11]⟩, 0, []⟩ := by
  rfl

/-- With an always-succeeding dialer the dial loop opens exactly `r` fresh
connections in `r` attempts. -/
theorem dialFrom_total (dial : Nat → Option Conn) (h : ∀ i, dial i ≠ none) :
    ∀ r i, (dialFrom dial i r).2.1 = none ∧ (dialFrom dial i r).1.length = r ∧
      (dialFrom dial i r).2.2 = r := by
  intro r
  induction r with
  | zero => intro i; simp [dialFrom]
  | succ n ih =>
    intro i
    have hd := h i
    cases hdi : dial i with
    | none => exact absurd hdi hd
    | some c =>
      have := ih (i + 1)
      simp [dialFrom, hdi]
      exact ⟨(this).1, (this).2.1, (this).2.2⟩

/-- Claim C6 (amended): `Connect` on an already-connected client is a no-op
on the pool — it leaves the existing connections untouched, closes nothing
and dials nothing; fresh connections (exactly `N` of them) are opened only
when the client is not currently connected. -/
theorem connect_idempotence (p : PoolState) (dial : Nat → Option Conn)
    (hN : p.total ≠ 0) :
    (p.connected = true →
      tcpConnect p true dial = ⟨none, { p with connected := true }, 0, []⟩) ∧
    (p.connected = false → (∀ i, dial i ≠ none) →
      (tcpConnect p true dial).err = none ∧
      (tcpConnect p true dial).state.connected = true ∧
      (tcpConnect p true dial).state.conns.length = p.total ∧
      (tcpConnect p true dial).dialsAttempted = p.total) := by
  constructor
  · intro hcn
    simp [tcpConnect, hN, hcn]
  · intro hcn hd
    have hall := dialFrom_total dial hd p.total 0
    simp [tcpConnect, hN, hcn, hall.1, hall.2.1, hall.2.2]

/-- Witness for the amended C6: both the connected no-op and the
fresh-connect branch at concrete states. -/
theorem connect_idempotence_witness :
    tcpConnect ⟨1, true, [some 5]⟩ true (fun _ => some 9)
      = ⟨none, ⟨1, true, [some 5]⟩, 0, []⟩ ∧
    (tcpConnect ⟨2, false, []⟩ true (fun _ => some 9)).state.conns.length = 2 := by
  have h1 := (connect_idempotence ⟨1, true, [some 5]⟩ (fun _ => some 9) (by decide)).1 rfl
  have h2 := (connect_idempotence ⟨2, false, []⟩ (fun _ => some 9) (by decide)).2 rfl
    (fun i => by simp)
  exact ⟨h1, h2.2.2.1⟩

/-- Claim C7 counterexample: a header read that fails with end-of-stream is
not retried even when the immediate re-dial succeeds — exactly one read is
attempted and the error is surfaced to the caller anyway. -/
theorem response_eof_not_retried :
    response (some 0) ⟨[], .eof⟩ (some 1) (fun _ => "") true
      = ⟨some (.readErr true), some 1, 1, 1⟩ := by
  rfl

/-- Claim C7 (amended): on an end-of-stream header read the client re-dials
that one connection once (discarding the dial error) and puts the dial
result back into the pool, but does not retry the read — the original error
is surfaced; on a non-EOF header read failure, and on every path with a
complete header, no dial is performed and the original connection is
returned. -/
theorem response_eof_reconnect_no_retry (conn : Option Conn) (cin : ConnIn)
    (redial : Option Conn) (dm : Bytes → String) (u : Bool)
    (h : cin.buf.length < 5) :
    (cin.tail = .eof →
      response conn cin redial dm u = ⟨some (.readErr true), redial, 1, 1⟩) ∧
    (cin.tail = .other →
      response conn cin redial dm u = ⟨some (.readErr false), conn, 0, 1⟩) ∧
    (∀ cin2 : ConnIn, 5 ≤ cin2.buf.length →
      (response conn cin2 redial dm u).dials = 0 ∧
      (response conn cin2 redial dm u).putBack = conn) := by
  refine ⟨?_, ?_, ?_⟩
  · intro ht
    simp [response, readN, Nat.not_le.mpr h, ht]
  · intro ht
    simp [response, readN, Nat.not_le.mpr h, ht]
  · intro cin2 h2
    simp only [response, readN, if_pos h2]
    split
    · simp
    · split
      · simp
      · split
        · simp
        · split <;> simp

/-- Witness for the amended C7 at a concrete closed stream. -/
theorem response_eof_reconnect_no_retry_witness :
    response (some 3) ⟨[1, 2], .other⟩ none (fun _ => "") true
      = ⟨some (.readErr false), some 3, 0, 1⟩ := by
  exact (response_eof_reconnect_no_retry (some 3) ⟨[1, 2], .other⟩ none
    (fun _ => "") true (by decide)).2.1 rfl

/-- Claim C10: when the header read fails with end-of-stream and the fresh
dial also fails (its error is discarded), a nil connection is placed into
the available set, and a later acquire hands that nil connection to a
caller. -/
theorem response_eof_dial_failure_nil_conn (conn : Option Conn) (cin : ConnIn)
    (dm : Bytes → String) (u : Bool) (p : PoolState) (dial : Nat → Option Conn)
    (h1 : cin.buf.length < 5) (h2 : cin.tail = .eof)
    (hp : p.connected = true) (he : p.conns = []) :
    (response conn cin none dm u).putBack = none ∧
    (response conn cin none dm u).err = some (.readErr true) ∧
    (getConn (releaseConn p (response conn cin none dm u).putBack) true dial).1
      = .ok none := by
  have hresp : response conn cin none dm u = ⟨some (.readErr true), none, 1, 1⟩ := by
    simp [response, readN, Nat.not_le.mpr h1, h2]
  refine ⟨by rw [hresp], by rw [hresp], ?_⟩
  rw [hresp]
  simp [getConn, releaseConn, hp, he]

/-- Witness for C10: a closed connection, a failed re-dial and an empty
pool; the next acquire yields the nil connection. -/
theorem response_eof_dial_failure_nil_conn_witness :
    (response (some 0) ⟨[], .eof⟩ none (fun _ => "") true).putBack = none ∧
    (getConn (releaseConn ⟨1, true, []⟩
        (response (some 0) ⟨[], .eof⟩ none (fun _ => "") true).putBack)
      true (fun _ => none)).1 = .ok none := by
  have h := response_eof_dial_failure_nil_conn (some 0) ⟨[], .eof⟩ (fun _ => "") true
    ⟨1, true, []⟩ (fun _ => none) (by decide) rfl rfl rfl
  exact ⟨h.1, h.2.2⟩

/-! ## MapReduce streamed response (client.go: `mr_response`, lines 273-347)

The decoded `pb.RpbMapRedResp` frames arrive in order; each carries an
optional `Done` marker and an optional result blob. The source captures the
first frame's blob, then loops `for done == nil`, capturing each further
frame's blob after updating `done` — so a blob travelling in the same frame
as the done marker is still captured before the loop exits. -/

/-- One decoded MapReduce response frame. -/
structure RpbMapRedResp where
  done : Option Bool
  response : Option Bytes
deriving Repr, DecidableEq

/-- The accumulation loop of `mr_response`: per frame, append the blob when
present, then stop if the frame carried the done marker; `none` when the
frames run out before a done marker (the next read would fail). -/
def mrCollect (acc : List Bytes) : List RpbMapRedResp → Option (List Bytes)
  | [] => none
  | f :: fs =>
    let acc2 := match f.response with
      | some b => acc ++ [b]
      | none => acc
    if f.done ≠ none then some acc2 else mrCollect acc2 fs

/-- `Client.mr_response` at the decoded-frame level: the first frame is
handled exactly like the loop body (blob captured, then done checked). -/
def mr_response (frames : List RpbMapRedResp) : Option (List Bytes) :=
  mrCollect [] frames

/-- The loop returns the accumulator extended with every present blob, once
the terminal frame is reached. -/
theorem mrCollect_spec (lastf : RpbMapRedResp) (hlast : lastf.done ≠ none) :
    ∀ (fs : List RpbMapRedResp) (acc : List Bytes), (∀ f ∈ fs, f.done = none) →
      mrCollect acc (fs ++ [lastf]) =
        some (acc ++ (fs ++ [lastf]).filterMap (fun f => f.response)) := by
  intro fs
  induction fs with
  | nil =>
    intro acc _
    cases hr : lastf.response <;>
      simp [mrCollect, hlast, List.filterMap, hr]
  | cons f fs ih =>
    intro acc hall
    have hf : f.done = none := hall f (by simp)
    have hrest : ∀ g ∈ fs, g.done = none := fun g hg => hall g (by simp [hg])
    cases hr : f.response with
    | none =>
      simp only [List.cons_append, mrCollect, hr, hf, List.append_eq]
      rw [if_neg (by simp), ih acc hrest]
      simp [List.filterMap_cons, hr]
    | some b =>
      simp only [List.cons_append, mrCollect, hr, hf, List.append_eq]
      rw [if_neg (by simp), ih (acc ++ [b]) hrest]
      simp [List.filterMap_cons, hr]

/-- Claim C8: for every sequence of MapReduce frames whose final frame (and
only it) carries the done marker, the streamed read returns exactly the
present result blobs of all frames in arrival order; a blob in the same
frame as the done marker is still captured. -/
theorem mr_response_collects_blobs (fs : List RpbMapRedResp) (lastf : RpbMapRedResp)
    (hfs : ∀ f ∈ fs, f.done = none) (hlast : lastf.done ≠ none) :
    mr_response (fs ++ [lastf]) =
      some ((fs ++ [lastf]).filterMap (fun f => f.response)) := by
  unfold mr_response
  rw [mrCollect_spec lastf hlast fs [] hfs]
  simp

/-- Witness for C8: two data frames then a terminal frame that itself
carries a blob. -/
theorem mr_response_collects_blobs_witness :
    mr_response [⟨none, some [1]⟩, ⟨none, none⟩, ⟨some true, some [2]⟩]
      = some [[1], [2]] := by
  have h := mr_response_collects_blobs [⟨none, some [1]⟩, ⟨none, none⟩]
    ⟨some true, some [2]⟩ (by intro f hf; fin_cases hf <;> rfl) (by simp)
  simpa using h

/-! ## Document-mapper conflict resolution (model.go: `Model.Resolve`,
`Client.Load`)

`Load`'s conflict branch counts the siblings with non-empty data, installs
the fetched object into the destination's `riak.Model` field and returns
`dest.Resolve(count)` directly; the embedded default `Model.Resolve` is the
callback used when the consuming type supplies none of its own. -/

/-- The count of siblings whose data is non-empty, as computed by `Load`
(and by `GetSiblings`). -/
def countNonEmptySiblings (obj : RObject) : Nat :=
  (obj.siblings.filter (fun s => s.data.length != 0)).length

/-- Observable result of the `Load` tail: the returned error and the
argument `Resolve` was invoked with, when it was. -/
structure LoadOutcome where
  err : Option RErr
  resolveCalledWith : Option Nat
deriving Repr, DecidableEq

/-- The default `Model.Resolve`: always `ResolveNotImplemented`. -/
def modelResolve : Nat → Option RErr :=
  fun _ => some .resolveNotImplemented

/-- The tail of `Client.Load` after a successful fetch of `obj`: on
conflict, return exactly the resolver's result on the non-empty sibling
count; otherwise map the JSON data onto the struct (`mapResult` is that
external mapping's result). -/
def load (obj : RObject) (resolve : Nat → Option RErr) (mapResult : Option RErr) :
    LoadOutcome :=
  if obj.conflict then
    ⟨resolve (countNonEmptySiblings obj), some (countNonEmptySiblings obj)⟩
  else ⟨mapResult, none⟩

/-- Claim C9: a `Load` that fetches an object in conflict invokes the
resolver with the count of non-empty siblings and returns exactly the
callback's result; with the default `Model.Resolve` (no callback supplied
by the consuming type) that result is `ResolveNotImplemented`. -/
theorem load_conflict_resolves (obj : RObject) (resolve : Nat → Option RErr)
    (mapResult : Option RErr) (h : obj.conflict = true) :
    load obj resolve mapResult
      = ⟨resolve (countNonEmptySiblings obj), some (countNonEmptySiblings obj)⟩ ∧
    (load obj modelResolve mapResult).err = some .resolveNotImplemented := by
  simp [load, h, modelResolve]

/-- Witness for C9: a concrete two-sibling conflict under the default
resolver. -/
theorem load_conflict_resolves_witness :
    (load (setContent (freshRObject "b" "k" [])
        { vclock := [], content := [contentA, contentB], unchanged := none })
      modelResolve none).err = some .resolveNotImplemented := by
  exact (load_conflict_resolves (setContent (freshRObject "b" "k" [])
    { vclock := [], content := [contentA, contentB], unchanged := none })
    modelResolve none (by decide)).2

end Riak
